import Mathlib

/-!
Verification of the CSS filter-property parser (`src/filter.rs`).

Modelling conventions:
* Rust string slices are modelled as `List Char` (`Str`).
* `f32` values are modelled as exact rationals `ℚ`; every numeric value
  appearing in the claims is exactly representable in `f32`, and all
  arithmetic performed by the code on those values is exact.
* The nom combinators used by the code (`tag`, `take_till`, `take_until`,
  `char`, `float`) are modelled as total functions returning `Option`
  (a nom parser of the `complete` flavour either succeeds, returning the
  remaining input and a value, or fails).
* `str::trim` is modelled for the ASCII whitespace the inputs contain.
-/

namespace CF

/-- Rust `&str`, modelled as a list of characters. -/
abbrev Str := List Char

/-- ASCII whitespace, the fragment of `char::is_whitespace` relevant here. -/
def isWs (c : Char) : Bool :=
  c = ' ' || c = '\t' || c = '\n' || c = '\r'

/-- `str::trim_start`. -/
def trimLeft (s : Str) : Str := s.dropWhile isWs

/-- `str::trim_end`. -/
def trimRight (s : Str) : Str := (s.reverse.dropWhile isWs).reverse

/-- Rust `str::trim` (trims both ends). -/
def trim (s : Str) : Str := trimRight (trimLeft s)

/-- nom `is_alphabetic` applied to `c as u8` (the scalar value truncated to
a byte), exactly as in `pixel` (filter.rs line 47). -/
def isAlphaByte (c : Char) : Bool :=
  let b := c.toNat % 256
  (65 ≤ b && b ≤ 90) || (97 ≤ b && b ≤ 122)

/-- nom `take_till p`: consume the longest prefix on which `p` is false.
Returns `(remaining, taken)`, in nom's order. Never fails. -/
def takeTill (p : Char → Bool) (s : Str) : Str × Str :=
  (s.dropWhile (fun c => !p c), s.takeWhile (fun c => !p c))

/-- nom `tag t`: if `t` is a prefix of the input, return the input with
that prefix removed, else fail. -/
def tag : Str → Str → Option Str
  | [], s => some s
  | _ :: _, [] => none
  | c :: t, c' :: s => if c = c' then tag t s else none

/-- nom `take_until pat`: find the first occurrence of `pat`; return
`(remaining-starting-at-pat, consumed-before-pat)`. Fails when `pat` does
not occur in the input. -/
def takeUntil (pat : Str) : Str → Option (Str × Str)
  | [] => if (tag pat []).isSome then some (([] : Str), ([] : Str)) else none
  | c :: cs =>
    if (tag pat (c :: cs)).isSome then some (c :: cs, [])
    else (takeUntil pat cs).map (fun p => (p.1, c :: p.2))

/-- nom `char c`: consume exactly the character `c`. -/
def pchar (c : Char) : Str → Option Str
  | [] => none
  | c' :: s => if c' = c then some s else none

/-- Digit string to natural number. -/
def digitsToNat (s : Str) : Nat :=
  s.foldl (fun acc c => acc * 10 + (c.toNat - 48)) 0

/-- Unsigned decimal mantissa: `digits`, `digits.digits?`, or `.digits`,
as recognized by nom's `float` / Rust's `f32` grammar. Returns
`(remaining, value)`. -/
def parseUFloat (s : Str) : Option (Str × ℚ) :=
  let ip := s.takeWhile Char.isDigit
  let s1 := s.dropWhile Char.isDigit
  match s1 with
  | '.' :: s2 =>
    let fp := s2.takeWhile Char.isDigit
    let s3 := s2.dropWhile Char.isDigit
    if ip = [] && fp = [] then none
    else some (s3, (digitsToNat ip : ℚ) + (digitsToNat fp : ℚ) / (10 ^ fp.length))
  | _ =>
    if ip = [] then none else some (s1, (digitsToNat ip : ℚ))

/-- Exponent digits after the sign: when at least one digit follows, the
exponent is consumed, otherwise the whole exponent attempt backtracks to
`orig` (the input including the `e`). -/
def parseExpDigits (s2 : Str) (sgn : Int) (orig : Str) : Str × Int :=
  if s2.takeWhile Char.isDigit = [] then (orig, 0)
  else (s2.dropWhile Char.isDigit, sgn * (digitsToNat (s2.takeWhile Char.isDigit) : Int))

/-- Optional decimal exponent `e`/`E` `[+-]?` `digits`; consumed only when
complete, otherwise leaves the input untouched. -/
def parseExp (s : Str) : Str × Int :=
  match s with
  | c :: s1 =>
    if c = 'e' || c = 'E' then
      match s1 with
      | '-' :: r => parseExpDigits r (-1) s
      | '+' :: r => parseExpDigits r 1 s
      | _ => parseExpDigits s1 1 s
    else (s, 0)
  | [] => (s, 0)

/-- Mantissa and optional exponent of a float, after the optional sign. -/
def floatMantissa (s1 : Str) (sgn : ℚ) : Option (Str × ℚ) :=
  match parseUFloat s1 with
  | none => none
  | some (s2, m) =>
    some ((parseExp s2).1,
      sgn * (if 0 ≤ (parseExp s2).2 then m * 10 ^ (parseExp s2).2.toNat
             else m / 10 ^ (-(parseExp s2).2).toNat))

/-- nom `float` (finite-decimal fragment): optional sign, mantissa,
optional exponent. Returns `(remaining, value)`, the value exact in `ℚ`. -/
def float (s : Str) : Option (Str × ℚ) :=
  match s with
  | '-' :: r => floatMantissa r (-1)
  | '+' :: r => floatMantissa r 1
  | _ => floatMantissa s 1

/-- Rust `str::parse::<f32>` (finite-decimal fragment): the whole string
must be a float literal. -/
def parseFloatFull (s : Str) : Option ℚ :=
  match float s with
  | some ([], v) => some v
  | _ => none

/-- `cssparser::RGBA`: four 8-bit channels. -/
structure RGBA where
  red : Nat
  green : Nat
  blue : Nat
  alpha : Nat
deriving DecidableEq

/-- The opaque-black default used by `parse_drop_shadow` (filter.rs 146-151). -/
def BLACK : RGBA := ⟨0, 0, 0, 255⟩

/-- `ParseFilterError` (filter.rs 15-23). -/
inductive ParseFilterError where
  | Nom : ParseFilterError
  | ParseFloatError : ParseFilterError
  | UnitParseError : Str → ParseFilterError
deriving DecidableEq

/-- `CssFilter` (filter.rs 37-43). -/
inductive CssFilter where
  | Blur : ℚ → CssFilter
  | Brightness : ℚ → CssFilter
  | Contrast : ℚ → CssFilter
  | DropShadow : ℚ → ℚ → ℚ → RGBA → CssFilter
deriving DecidableEq

/-- Hexadecimal digit value. -/
def hexDigit (c : Char) : Option Nat :=
  if '0' ≤ c && c ≤ '9' then some (c.toNat - 48)
  else if 'a' ≤ c && c ≤ 'f' then some (c.toNat - 87)
  else if 'A' ≤ c && c ≤ 'F' then some (c.toNat - 55)
  else none

/-- Clamp a number to an 8-bit channel, rounding to nearest. -/
def clampU8 (q : ℚ) : Nat :=
  if q ≤ 0 then 0 else if 255 ≤ q then 255 else (q + 1/2).floor.toNat

/-- Clamp an alpha value (unit interval) to an 8-bit channel. -/
def clampAlpha (q : ℚ) : Nat :=
  if q ≤ 0 then 0 else if 1 ≤ q then 255 else (q * 255 + 1/2).floor.toNat

/-- Skip an (optionally space-surrounded) comma. -/
def skipComma (s : Str) : Option Str :=
  match trimLeft s with
  | ',' :: rest => some (trimLeft rest)
  | _ => none

/-- Modelled from the spec: the argument list of the `rgb(...)`/`rgba(...)`
functional color syntax accepted by `cssparser::Color::parse` (an external
crate; spec §4.2 and §9 describe the required subset: comma-separated
channel numbers, optional alpha in the unit interval, a missing closing
parenthesis tolerated because CSS closes unclosed blocks at end of input). -/
def parseRgbArgs (s : Str) : Option RGBA :=
  match float (trimLeft s) with
  | none => none
  | some (s1, r) =>
  match skipComma s1 with
  | none => none
  | some s2 =>
  match float s2 with
  | none => none
  | some (s3, g) =>
  match skipComma s3 with
  | none => none
  | some s4 =>
  match float s4 with
  | none => none
  | some (s5, b) =>
  let pa : Str × Nat :=
    match skipComma s5 with
    | some s5' =>
      match float s5' with
      | some (s6, a) => (s6, clampAlpha a)
      | none => (s5, 255)
    | none => (s5, 255)
  match trimLeft pa.1 with
  | [] => some ⟨clampU8 r, clampU8 g, clampU8 b, pa.2⟩
  | [')'] => some ⟨clampU8 r, clampU8 g, clampU8 b, pa.2⟩
  | _ => none

/-- Modelled from the spec: `cssparser::Color::parse` (external crate),
restricted to the hex (`#RRGGBB`/`#RGB`) and `rgb(...)`/`rgba(...)`
functional forms; spec §9 states this minimal subset suffices to match the
observed behavior. Returns `none` on failure (the caller then defaults to
opaque black). -/
def parseColor (s : Str) : Option RGBA :=
  match s with
  | '#' :: [a, b, c, d, e, f] =>
    match hexDigit a, hexDigit b, hexDigit c, hexDigit d, hexDigit e, hexDigit f with
    | some r1, some r2, some g1, some g2, some b1, some b2 =>
      some ⟨r1 * 16 + r2, g1 * 16 + g2, b1 * 16 + b2, 255⟩
    | _, _, _, _, _, _ => none
  | '#' :: [a, b, c] =>
    match hexDigit a, hexDigit b, hexDigit c with
    | some r, some g, some bl => some ⟨r * 17, g * 17, bl * 17, 255⟩
    | _, _, _ => none
  | _ =>
    match tag "rgba(".data s with
    | some args => parseRgbArgs args
    | none =>
      match tag "rgb(".data s with
      | some args => parseRgbArgs args
      | none => none

/-- The unit-conversion table of `pixel` (the `match unit.trim()` at
filter.rs 51-84), applied to the parsed size. -/
def unitToPx (size : ℚ) (unit : Str) : Except ParseFilterError ℚ :=
  match unit with
  | ['e', 'm'] | ['r', 'e', 'm'] | ['p', 'c'] => .ok (size * 16)
  | ['p', 't'] => .ok (size * 4 / 3)
  | ['p', 'x'] => .ok size
  | ['i', 'n'] => .ok (size * 96)
  | ['c', 'm'] => .ok (size * 96 / 2.54)
  | ['m', 'm'] => .ok (size * 96 / 25.4)
  | ['q'] => .ok (size * 96 / 25.4 / 4)
  | ['%'] => .ok (size * 16 / 100)
  | [] =>
    if size ≠ 0 then .error (.UnitParseError "[No unit assigned]".data)
    else .ok size
  | u => .error (.UnitParseError u)

/-- `pixel` (filter.rs 46-87): split the argument into numeric part
(everything up to the first alphabetic byte) and unit part (everything up
to the next closing parenthesis), parse the number, apply the unit table. -/
def pixel (input : Str) : Except ParseFilterError ℚ :=
  let p1 := takeTill isAlphaByte input
  let p2 := takeTill (fun c => c = ')') p1.1
  match parseFloatFull (trim p1.2) with
  | none => .error .ParseFloatError
  | some size => unitToPx size (trim p2.2)

/-- `pixel_in_tuple` (filter.rs 90-92): `map_res(take_until(")"), pixel)`. -/
def pixel_in_tuple (input : Str) : Option (Str × ℚ) :=
  match takeUntil ")".data input with
  | none => none
  | some (rest, taken) =>
    match pixel taken with
    | .ok v => some (rest, v)
    | .error _ => none

/-- `number_percentage` (filter.rs 95-102): a float, then `/ 100` when a
`%` tag follows (after trimming). -/
def number_percentage (input : Str) : Option (Str × ℚ) :=
  match float (trim input) with
  | none => none
  | some (rest, num) =>
    match tag "%".data (trim rest) with
    | some rest2 => some (rest2, num / 100)
    | none => some (rest, num)

/-- `brightness_parser` (filter.rs 105-110). -/
def brightnessParser (input : Str) : Option (Str × CssFilter) :=
  match tag "brightness(".data input with
  | none => none
  | some s1 =>
  match number_percentage s1 with
  | none => none
  | some (s2, brightness) =>
  match pchar ')' (trim s2) with
  | none => none
  | some s3 => some (trim s3, .Brightness brightness)

/-- `blur_parser` (filter.rs 113-119). -/
def blurParser (input : Str) : Option (Str × CssFilter) :=
  match tag "blur(".data input with
  | none => none
  | some s1 =>
  match pixel_in_tuple s1 with
  | none => none
  | some (s2, px) =>
  match pchar ')' s2 with
  | none => none
  | some s3 => some (trim s3, .Blur px)

/-- `contrast_parser` (filter.rs 122-127). -/
def contrastParser (input : Str) : Option (Str × CssFilter) :=
  match tag "contrast(".data input with
  | none => none
  | some s1 =>
  match number_percentage s1 with
  | none => none
  | some (s2, contrast) =>
  match pchar ')' (trim s2) with
  | none => none
  | some s3 => some (trim s3, .Contrast contrast)

/-- The color-and-closing-parens tail of `parse_drop_shadow`
(filter.rs 142-172), starting from `blur_radius_output` (`brRest`). -/
def dropShadowTail (brRest : Str) (offset_x offset_y blur_radius : ℚ) :
    Option (Str × CssFilter) :=
  let is_rgb_fn := (tag "rgb(".data brRest).isSome || (tag "rgba(".data brRest).isSome
  match takeUntil (if is_rgb_fn then "))".data else ")".data) brRest with
  | none => none
  | some (colRest, colRaw) =>
  let colStr := trim colRaw
  let shadow_color := if colStr ≠ [] then (parseColor colStr).getD BLACK else BLACK
  match pchar ')' (trim colRest) with
  | none => none
  | some o1 =>
  if is_rgb_fn then
    match pchar ')' o1 with
    | none => none
    | some o2 => some (trim o2, .DropShadow offset_x offset_y blur_radius shadow_color)
  else
    some (trim o1, .DropShadow offset_x offset_y blur_radius shadow_color)

/-- The optional blur-radius step of `parse_drop_shadow` (filter.rs
138-141): a third length, defaulting to `0` (with no input consumed) when
unparsable, then the tail. `oyRest` is `offset_y_output.trim()`. -/
def dropShadowBlur (oyRest : Str) (offset_x offset_y : ℚ) :
    Option (Str × CssFilter) :=
  let pb := takeTill (fun ch => ch = ' ' || ch = ')') oyRest
  match pixel pb.2 with
  | .ok v => dropShadowTail (trim pb.1) offset_x offset_y v
  | .error _ => dropShadowTail (trim oyRest) offset_x offset_y 0

/-- `parse_drop_shadow` (filter.rs 130-173): tag, two mandatory lengths,
then the blur-radius and color steps above. -/
def parse_drop_shadow (input : Str) : Option (Str × CssFilter) :=
  match tag "drop-shadow(".data input with
  | none => none
  | some s0 =>
  match takeUntil " ".data (trim s0) with
  | none => none
  | some (oxRest, oxStr) =>
  match pixel oxStr with
  | .error _ => none
  | .ok offset_x =>
  let py := takeTill (fun ch => ch = ' ' || ch = ')') (trim oxRest)
  match pixel py.2 with
  | .error _ => none
  | .ok offset_y => dropShadowBlur (trim py.1) offset_x offset_y

/-- The alternation `alt((blur_parser, brightness_parser, contrast_parser,
parse_drop_shadow))` tried by `css_filter` (filter.rs 179-184). -/
def cssFilterAlt (input : Str) : Option (Str × CssFilter) :=
  match blurParser input with
  | some r => some r
  | none =>
  match brightnessParser input with
  | some r => some r
  | none =>
  match contrastParser input with
  | some r => some r
  | none => parse_drop_shadow input

/-- The `while let Ok(...)` loop of `css_filter` (filter.rs 179-188),
with explicit fuel. Every successful alternation attempt strictly shortens
the input (`cssFilterAlt_length` below), so fuel `input.length + 1` makes
this the exact fixpoint of the loop. -/
def cssFilterLoopF : Nat → Str → List CssFilter → Str × List CssFilter
  | 0, input, filters => (input, filters)
  | fuel + 1, input, filters =>
    match cssFilterAlt input with
    | some (output, filter) => cssFilterLoopF fuel output (filters ++ [filter])
    | none => (input, filters)

/-- Mirror of nom's `Err` for the `IResult` return type of `css_filter`;
the body of `css_filter` never constructs it. -/
inductive NomFailure where
  | failure : NomFailure
deriving DecidableEq

instance exceptDecEq {ε α : Type} [DecidableEq ε] [DecidableEq α] : DecidableEq (Except ε α)
  | .ok a, .ok b =>
    if h : a = b then .isTrue (by rw [h]) else .isFalse (fun hh => by cases hh; exact h rfl)
  | .ok _, .error _ => .isFalse (fun hh => by cases hh)
  | .error _, .ok _ => .isFalse (fun hh => by cases hh)
  | .error e, .error e' =>
    if h : e = e' then .isTrue (by rw [h]) else .isFalse (fun hh => by cases hh; exact h rfl)

/-- `css_filter` (filter.rs 176-191): trim once, loop the alternation,
return the remainder and the accumulated filters. -/
def css_filter (input : Str) : Except NomFailure (Str × List CssFilter) :=
  .ok (cssFilterLoopF ((trim input).length + 1) (trim input) [])

/-! ### Whitespace and suffix lemmas -/

/-- A string with no trailing whitespace (the shape of every remainder
circulating in `css_filter`'s loop, since the input is trimmed on entry
and every parser trims its remainder). -/
def NoTrailWs (s : Str) : Prop := ∀ c ∈ s.reverse.head?, isWs c = false

theorem head_dropWhile_false (p : Char → Bool) (l : Str) :
    ∀ c ∈ (l.dropWhile p).head?, p c = false := by
  induction l with
  | nil => intro c hc; simp [List.dropWhile] at hc
  | cons a l ih =>
    intro c hc
    rw [List.dropWhile_cons] at hc
    by_cases h : p a
    · rw [if_pos h] at hc; exact ih c hc
    · rw [if_neg h] at hc
      simp only [List.head?, Option.mem_def, Option.some.injEq] at hc
      subst hc
      simpa using h

theorem noTrailWs_trimRight (s : Str) : NoTrailWs (trimRight s) := by
  intro c hc
  rw [trimRight, List.reverse_reverse] at hc
  exact head_dropWhile_false isWs s.reverse c hc

theorem noTrailWs_trim (s : Str) : NoTrailWs (trim s) := noTrailWs_trimRight _

theorem noTrailWs_suffix {s t : Str} (h : s <:+ t) (ht : NoTrailWs t) : NoTrailWs s := by
  obtain ⟨p, hp⟩ := h
  intro c hc
  rw [Option.mem_def] at hc
  apply ht c
  rw [Option.mem_def, ← hp, List.reverse_append]
  cases hrev : s.reverse with
  | nil => rw [hrev] at hc; simp at hc
  | cons c' rest =>
    rw [hrev] at hc
    simp only [List.head?, Option.some.injEq] at hc
    subst hc
    simp [List.head?]

theorem trimRight_eq_self {s : Str} (h : NoTrailWs s) : trimRight s = s := by
  rw [trimRight]
  cases hrev : s.reverse with
  | nil =>
    have : s = [] := by simpa using congrArg List.reverse hrev
    simp [this]
  | cons c rest =>
    have hc : isWs c = false := by
      apply h c
      rw [Option.mem_def, hrev]
      rfl
    have h2 : List.dropWhile isWs (c :: rest) = c :: rest :=
      List.dropWhile_cons_of_neg (by simp [hc])
    rw [h2, ← hrev, List.reverse_reverse]

theorem trim_eq_trimLeft {s : Str} (h : NoTrailWs s) : trim s = trimLeft s := by
  rw [trim]
  exact trimRight_eq_self (noTrailWs_suffix (List.dropWhile_suffix isWs) h)

theorem trimLeft_sfx (s : Str) : trimLeft s <:+ s := List.dropWhile_suffix isWs

theorem trim_sfx {s : Str} (h : NoTrailWs s) : trim s <:+ s := by
  rw [trim_eq_trimLeft h]; exact trimLeft_sfx s

/-- Trimming a suffix of a trailing-whitespace-free string yields a suffix. -/
theorem trim_sfx_of_sfx {s t : Str} (hs : s <:+ t) (ht : NoTrailWs t) : trim s <:+ s :=
  trim_sfx (noTrailWs_suffix hs ht)

/-! ### Combinator lemmas -/

theorem tag_sfx_len : ∀ (t s r : Str), tag t s = some r →
    r <:+ s ∧ r.length + t.length = s.length := by
  intro t
  induction t with
  | nil =>
    intro s r h
    simp only [tag, Option.some.injEq] at h
    subst h
    exact ⟨List.suffix_refl s, by simp⟩
  | cons c t ih =>
    intro s r h
    cases s with
    | nil => simp [tag] at h
    | cons c' s' =>
      simp only [tag] at h
      by_cases hc : c = c'
      · rw [if_pos hc] at h
        obtain ⟨hs, hl⟩ := ih s' r h
        refine ⟨hs.trans (List.suffix_cons c' s'), ?_⟩
        simp only [List.length_cons]
        omega
      · rw [if_neg hc] at h; cases h

theorem tag_sfx {t s r : Str} (h : tag t s = some r) : r <:+ s := (tag_sfx_len t s r h).1

theorem pchar_sfx {c : Char} {s r : Str} (h : pchar c s = some r) : r <:+ s := by
  cases s with
  | nil => cases h
  | cons c0 s0 =>
    simp only [pchar] at h
    by_cases hc : c0 = c
    · rw [if_pos hc] at h
      injection h with h0
      rw [← h0]
      exact List.suffix_cons _ _
    · rw [if_neg hc] at h; cases h

theorem takeTill_sfx (p : Char → Bool) (s : Str) : (takeTill p s).1 <:+ s :=
  List.dropWhile_suffix _

theorem takeUntil_sfx (pat : Str) : ∀ (s : Str) (pr : Str × Str),
    takeUntil pat s = some pr → pr.1 <:+ s := by
  intro s
  induction s with
  | nil =>
    intro pr h
    simp only [takeUntil] at h
    by_cases hp : (tag pat []).isSome
    · rw [if_pos hp] at h
      cases h
      exact List.suffix_refl []
    · rw [if_neg hp] at h; cases h
  | cons c cs ih =>
    intro pr h
    simp only [takeUntil] at h
    by_cases hp : (tag pat (c :: cs)).isSome
    · rw [if_pos hp] at h
      cases h
      exact List.suffix_refl _
    · rw [if_neg hp, Option.map_eq_some'] at h
      obtain ⟨q, hq, hpr⟩ := h
      have := ih q hq
      subst hpr
      exact this.trans (List.suffix_cons c cs)

theorem parseUFloat_sfx {s : Str} {pr : Str × ℚ} (h : parseUFloat s = some pr) :
    pr.1 <:+ s := by
  have hs1 : s.dropWhile Char.isDigit <:+ s := List.dropWhile_suffix _
  simp only [parseUFloat] at h
  split at h
  next s2 heq =>
    split at h
    · cases h
    · injection h with h0
      rw [← h0]
      rw [heq] at hs1
      exact ((List.dropWhile_suffix _).trans (List.suffix_cons '.' s2)).trans hs1
  next =>
    split at h
    · cases h
    · injection h with h0
      rw [← h0]
      exact hs1

theorem parseExpDigits_sfx {s2 orig : Str} {sgn : Int} (h : s2 <:+ orig) :
    (parseExpDigits s2 sgn orig).1 <:+ orig := by
  simp only [parseExpDigits]
  split
  · exact List.suffix_refl _
  · exact (List.dropWhile_suffix _).trans h

theorem parseExp_sfx (s : Str) : (parseExp s).1 <:+ s := by
  simp only [parseExp]
  split
  next c s1 =>
    by_cases hce : (c = 'e' || c = 'E') = true
    · rw [if_pos hce]
      split
      all_goals first
        | exact parseExpDigits_sfx ((List.suffix_cons _ _).trans (List.suffix_cons _ _))
        | exact parseExpDigits_sfx (List.suffix_cons _ _)
    · rw [if_neg hce]
  next => exact List.suffix_refl _

theorem floatMantissa_sfx {s1 : Str} {sgn : ℚ} {pr : Str × ℚ}
    (h : floatMantissa s1 sgn = some pr) : pr.1 <:+ s1 := by
  simp only [floatMantissa] at h
  split at h
  · cases h
  next s2 m heq =>
    injection h with h0
    rw [← h0]
    exact (parseExp_sfx s2).trans (parseUFloat_sfx heq)

theorem float_sfx {s : Str} {pr : Str × ℚ} (h : float s = some pr) : pr.1 <:+ s := by
  simp only [float] at h
  split at h
  next r => exact (floatMantissa_sfx h).trans (List.suffix_cons _ _)
  next r => exact (floatMantissa_sfx h).trans (List.suffix_cons _ _)
  next => exact floatMantissa_sfx h

/-! ### Per-parser step lemmas: on success the remainder is a suffix of the
input and strictly shorter (the leading function-name tag is consumed). -/

theorem number_percentage_sfx {i : Str} {pr : Str × ℚ} (hw : NoTrailWs i)
    (h : number_percentage i = some pr) : pr.1 <:+ i := by
  simp only [number_percentage] at h
  split at h
  · cases h
  next rest num heq =>
    have hrest : rest <:+ i := (float_sfx heq).trans (trim_sfx hw)
    split at h
    next rest2 htag =>
      injection h with h0
      rw [← h0]
      exact ((tag_sfx htag).trans (trim_sfx_of_sfx hrest hw)).trans hrest
    next =>
      injection h with h0
      rw [← h0]
      exact hrest

theorem pixel_in_tuple_sfx {i : Str} {pr : Str × ℚ} (h : pixel_in_tuple i = some pr) :
    pr.1 <:+ i := by
  simp only [pixel_in_tuple] at h
  split at h
  · cases h
  next rest taken heq =>
    split at h
    next v _ =>
      injection h with h0
      rw [← h0]
      exact takeUntil_sfx _ i (rest, taken) heq
    next => cases h

theorem blurParser_step {i : Str} {pr : Str × CssFilter} (hw : NoTrailWs i)
    (h : blurParser i = some pr) : pr.1 <:+ i ∧ pr.1.length < i.length := by
  simp only [blurParser] at h
  split at h
  · cases h
  next s1 htag =>
    split at h
    · cases h
    next s2 px hpit =>
      split at h
      · cases h
      next s3 hch =>
        injection h with h0
        obtain ⟨htagsfx, htaglen⟩ := tag_sfx_len _ _ _ htag
        have hs3 : s3 <:+ i := ((pchar_sfx hch).trans (pixel_in_tuple_sfx hpit)).trans htagsfx
        have hsfx : pr.1 <:+ i := by
          rw [← h0]
          exact (trim_sfx_of_sfx hs3 hw).trans hs3
        refine ⟨hsfx, ?_⟩
        have h1 : pr.1.length ≤ s3.length := by
          rw [← h0]
          exact (trim_sfx_of_sfx hs3 hw).length_le
        have h2 : s3.length ≤ s1.length :=
          ((pchar_sfx hch).trans (pixel_in_tuple_sfx hpit)).length_le
        have h5 : (['b', 'l', 'u', 'r', '('] : Str).length = 5 := rfl
        have h6 : ("blur(".data).length = 5 := by with_unfolding_all decide
        omega

theorem brightnessParser_step {i : Str} {pr : Str × CssFilter} (hw : NoTrailWs i)
    (h : brightnessParser i = some pr) : pr.1 <:+ i ∧ pr.1.length < i.length := by
  simp only [brightnessParser] at h
  split at h
  · cases h
  next s1 htag =>
    split at h
    · cases h
    next s2 b hnp =>
      split at h
      · cases h
      next s3 hch =>
        injection h with h0
        obtain ⟨htagsfx, htaglen⟩ := tag_sfx_len _ _ _ htag
        have hw1 : NoTrailWs s1 := noTrailWs_suffix htagsfx hw
        have hs2 : s2 <:+ s1 := number_percentage_sfx hw1 hnp
        have hs3 : s3 <:+ i :=
          (((pchar_sfx hch).trans (trim_sfx_of_sfx hs2 hw1)).trans hs2).trans htagsfx
        have hsfx : pr.1 <:+ i := by
          rw [← h0]
          exact (trim_sfx_of_sfx hs3 hw).trans hs3
        refine ⟨hsfx, ?_⟩
        have h1 : pr.1.length ≤ s3.length := by
          rw [← h0]
          exact (trim_sfx_of_sfx hs3 hw).length_le
        have h2 : s3.length ≤ s1.length :=
          (((pchar_sfx hch).trans (trim_sfx_of_sfx hs2 hw1)).trans hs2).length_le
        have h5 : (['b', 'r', 'i', 'g', 'h', 't', 'n', 'e', 's', 's', '('] : Str).length = 11 := rfl
        have h6 : ("brightness(".data).length = 11 := by with_unfolding_all decide
        omega

theorem contrastParser_step {i : Str} {pr : Str × CssFilter} (hw : NoTrailWs i)
    (h : contrastParser i = some pr) : pr.1 <:+ i ∧ pr.1.length < i.length := by
  simp only [contrastParser] at h
  split at h
  · cases h
  next s1 htag =>
    split at h
    · cases h
    next s2 b hnp =>
      split at h
      · cases h
      next s3 hch =>
        injection h with h0
        obtain ⟨htagsfx, htaglen⟩ := tag_sfx_len _ _ _ htag
        have hw1 : NoTrailWs s1 := noTrailWs_suffix htagsfx hw
        have hs2 : s2 <:+ s1 := number_percentage_sfx hw1 hnp
        have hs3 : s3 <:+ i :=
          (((pchar_sfx hch).trans (trim_sfx_of_sfx hs2 hw1)).trans hs2).trans htagsfx
        have hsfx : pr.1 <:+ i := by
          rw [← h0]
          exact (trim_sfx_of_sfx hs3 hw).trans hs3
        refine ⟨hsfx, ?_⟩
        have h1 : pr.1.length ≤ s3.length := by
          rw [← h0]
          exact (trim_sfx_of_sfx hs3 hw).length_le
        have h2 : s3.length ≤ s1.length :=
          (((pchar_sfx hch).trans (trim_sfx_of_sfx hs2 hw1)).trans hs2).length_le
        have h5 : (['c', 'o', 'n', 't', 'r', 'a', 's', 't', '('] : Str).length = 9 := rfl
        have h6 : ("contrast(".data).length = 9 := by with_unfolding_all decide
        omega

theorem dropShadowTail_sfx {b : Str} {x y r : ℚ} {pr : Str × CssFilter}
    (hw : NoTrailWs b) (h : dropShadowTail b x y r = some pr) : pr.1 <:+ b := by
  simp only [dropShadowTail] at h
  split at h
  · cases h
  next colRest colRaw heq =>
    have hcol : colRest <:+ b := takeUntil_sfx _ _ _ heq
    split at h
    · cases h
    next o1 hch1 =>
      have ho1 : o1 <:+ b := ((pchar_sfx hch1).trans (trim_sfx_of_sfx hcol hw)).trans hcol
      split at h
      · split at h
        · cases h
        next o2 hch2 =>
          injection h with h0
          rw [← h0]
          have ho2 : o2 <:+ b := (pchar_sfx hch2).trans ho1
          exact (trim_sfx_of_sfx ho2 hw).trans ho2
      · injection h with h0
        rw [← h0]
        exact (trim_sfx_of_sfx ho1 hw).trans ho1

theorem dropShadowBlur_sfx {oy : Str} {x y : ℚ} {pr : Str × CssFilter}
    (hw : NoTrailWs oy) (h : dropShadowBlur oy x y = some pr) : pr.1 <:+ oy := by
  have hpb : (takeTill (fun ch => ch = ' ' || ch = ')') oy).1 <:+ oy := takeTill_sfx _ _
  simp only [dropShadowBlur] at h
  split at h
  next v heq =>
    exact ((dropShadowTail_sfx (noTrailWs_trim _) h).trans
      (trim_sfx_of_sfx hpb hw)).trans hpb
  next e heq =>
    exact (dropShadowTail_sfx (noTrailWs_trim _) h).trans (trim_sfx hw)

theorem parse_drop_shadow_step {i : Str} {pr : Str × CssFilter} (hw : NoTrailWs i)
    (h : parse_drop_shadow i = some pr) : pr.1 <:+ i ∧ pr.1.length < i.length := by
  simp only [parse_drop_shadow] at h
  split at h
  · cases h
  next s0 htag =>
    split at h
    · cases h
    next oxRest oxStr heq2 =>
      split at h
      · cases h
      next ox heq3 =>
        split at h
        · cases h
        next oy heq4 =>
          obtain ⟨htagsfx, htaglen⟩ := tag_sfx_len _ _ _ htag
          have hw0 : NoTrailWs s0 := noTrailWs_suffix htagsfx hw
          have g1 : trim s0 <:+ s0 := trim_sfx hw0
          have g2 : oxRest <:+ s0 := (takeUntil_sfx _ _ _ heq2).trans g1
          have hw2 : NoTrailWs oxRest := noTrailWs_suffix g2 hw0
          have g4 : (takeTill (fun ch => ch = ' ' || ch = ')') (trim oxRest)).1 <:+ s0 :=
            ((takeTill_sfx _ _).trans (trim_sfx hw2)).trans g2
          have g5 : trim (takeTill (fun ch => ch = ' ' || ch = ')') (trim oxRest)).1 <:+ s0 :=
            (trim_sfx (noTrailWs_suffix g4 hw0)).trans g4
          have g6 := dropShadowBlur_sfx (noTrailWs_trim _) h
          refine ⟨(g6.trans g5).trans htagsfx, ?_⟩
          have hlen : pr.1.length ≤ s0.length := (g6.trans g5).length_le
          have h5 : (['d', 'r', 'o', 'p', '-', 's', 'h', 'a', 'd', 'o', 'w', '('] : Str).length = 12 := rfl
          omega

theorem cssFilterAlt_step {i : Str} {pr : Str × CssFilter} (hw : NoTrailWs i)
    (h : cssFilterAlt i = some pr) : pr.1 <:+ i ∧ pr.1.length < i.length := by
  simp only [cssFilterAlt] at h
  split at h
  next r hb =>
    injection h with h0
    subst h0
    exact blurParser_step hw hb
  next hb =>
    split at h
    next r hbr =>
      injection h with h0
      subst h0
      exact brightnessParser_step hw hbr
    next =>
      split at h
      next r hc =>
        injection h with h0
        subst h0
        exact contrastParser_step hw hc
      next => exact parse_drop_shadow_step hw h

theorem cssFilterAlt_none {i : Str} (h : cssFilterAlt i = none) :
    blurParser i = none ∧ brightnessParser i = none ∧ contrastParser i = none ∧
    parse_drop_shadow i = none := by
  simp only [cssFilterAlt] at h
  split at h
  · cases h
  next hb =>
    split at h
    · cases h
    next hbr =>
      split at h
      · cases h
      next hc => exact ⟨hb, hbr, hc, h⟩

/-! ### The driver loop -/

/-- `Chain s fs rem`: starting from input `s`, the alternation succeeds
repeatedly, producing the filters `fs` in left-to-right textual order and
leaving `rem`. This is exactly the iteration performed by `css_filter`'s
`while let` loop. -/
inductive Chain : Str → List CssFilter → Str → Prop where
  | nil (s : Str) : Chain s [] s
  | cons {s s' rem : Str} {f : CssFilter} {fs : List CssFilter} :
      cssFilterAlt s = some (s', f) → Chain s' fs rem → Chain s (f :: fs) rem

/-- Soundness of the fuel-indexed loop against `Chain`: with enough fuel
the loop follows any chain that ends at a position where no grammar
matches. -/
theorem loopF_of_chain {s : Str} {fs : List CssFilter} {rem : Str}
    (hc : Chain s fs rem) :
    ∀ (fuel : Nat) (acc : List CssFilter), NoTrailWs s → s.length < fuel →
      cssFilterAlt rem = none → cssFilterLoopF fuel s acc = (rem, acc ++ fs) := by
  induction hc with
  | nil s =>
    intro fuel acc hw hf hn
    cases fuel with
    | zero => omega
    | succ k => simp [cssFilterLoopF, hn]
  | @cons s0 s1 rem0 f0 fs0 hstep htail ih =>
    intro fuel acc hw hf hn
    cases fuel with
    | zero => omega
    | succ k =>
      obtain ⟨hsfx, hlt⟩ := cssFilterAlt_step hw hstep
      dsimp only at hsfx hlt
      simp only [cssFilterLoopF, hstep]
      rw [ih k (acc ++ [f0]) (noTrailWs_suffix hsfx hw) (by omega) hn]
      simp

/-- Completeness of the fuel-indexed loop: with enough fuel, whatever the
loop returns is reachable by a `Chain`, ends where no grammar matches, and
the remainder is a suffix of the start. -/
theorem loopF_chain : ∀ (fuel : Nat) (s : Str) (acc : List CssFilter)
    {rem : Str} {fs : List CssFilter}, NoTrailWs s → s.length < fuel →
    cssFilterLoopF fuel s acc = (rem, fs) →
    ∃ l, fs = acc ++ l ∧ Chain s l rem ∧ cssFilterAlt rem = none ∧ rem <:+ s := by
  intro fuel
  induction fuel with
  | zero => intro s acc rem fs hw hf h; omega
  | succ k ih =>
    intro s acc rem fs hw hf h
    simp only [cssFilterLoopF] at h
    cases halt : cssFilterAlt s with
    | none =>
      simp only [halt] at h
      injection h with h1 h2
      subst h1
      subst h2
      exact ⟨[], by simp, Chain.nil s, halt, List.suffix_refl s⟩
    | some pr =>
      obtain ⟨out, f⟩ := pr
      simp only [halt] at h
      obtain ⟨hsfx, hlt⟩ := cssFilterAlt_step hw halt
      dsimp only at hsfx hlt
      obtain ⟨l, hfs, hch, hn, hsfx2⟩ :=
        ih out (acc ++ [f]) (noTrailWs_suffix hsfx hw) (by omega) h
      refine ⟨f :: l, ?_, Chain.cons halt hch, hn, hsfx2.trans hsfx⟩
      rw [hfs]
      simp

/-! ### The claims -/

/-- Claim C1: on any input whose trimmed form starts with zero or more
parseable filter functions followed by text no grammar matches,
`css_filter` returns the filters parsed from that prefix, in order,
together with the unmatched text as remainder; in particular
`css_filter "blur(20px) unknown-fn(1)"` is `Ok(("unknown-fn(1)", [Blur 20.0]))` —
already-parsed entries are never dropped on malformed trailing input. -/
theorem claim_C1 :
    (∀ (input rem : Str) (fs : List CssFilter), Chain (trim input) fs rem →
      cssFilterAlt rem = none → css_filter input = .ok (rem, fs)) ∧
    css_filter "blur(20px) unknown-fn(1)".data =
      .ok ("unknown-fn(1)".data, [CssFilter.Blur 20]) := by
  constructor
  · intro input rem fs hch hn
    unfold css_filter
    rw [loopF_of_chain hch ((trim input).length + 1) [] (noTrailWs_trim _) (by omega) hn]
    simp
  · with_unfolding_all decide

/-- Witness for C1 at the concrete input of the claim. -/
theorem claim_C1_witness :
    css_filter "blur(20px) unknown-fn(1)".data =
      .ok ("unknown-fn(1)".data, [CssFilter.Blur 20]) := by
  have h1 : cssFilterAlt (trim "blur(20px) unknown-fn(1)".data) =
      some ("unknown-fn(1)".data, CssFilter.Blur 20) := by with_unfolding_all decide
  have h2 : cssFilterAlt "unknown-fn(1)".data = none := by with_unfolding_all decide
  exact claim_C1.1 _ _ _ (Chain.cons h1 (Chain.nil _)) h2

/-- Claim C2: `css_filter` returns `Ok` on every input — the `Err` branch
of its result type is unreachable; and `css_filter ""` is `Ok(("", []))`. -/
theorem claim_C2 :
    (∀ input : Str, ∃ p, css_filter input = .ok p) ∧
    css_filter "".data = .ok ([], []) := by
  constructor
  · intro input
    exact ⟨_, rfl⟩
  · with_unfolding_all decide

/-- Claim C3: the unit normalizer applies the fixed table (em/rem/pc ×16,
pt ×4/3, px ×1, in ×96, cm ×96/2.54, mm ×96/25.4, q ×96/25.4/4), so
`blur(1.5rem)` gives `Blur 24`, `blur(1in)` gives `Blur 96`, and `blur(0)`
gives `Blur 0`, each with empty remainder. -/
theorem claim_C3 :
    (∀ s : ℚ, unitToPx s "em".data = .ok (s * 16) ∧ unitToPx s "rem".data = .ok (s * 16) ∧
      unitToPx s "pc".data = .ok (s * 16) ∧ unitToPx s "pt".data = .ok (s * 4 / 3) ∧
      unitToPx s "px".data = .ok s ∧ unitToPx s "in".data = .ok (s * 96) ∧
      unitToPx s "cm".data = .ok (s * 96 / 2.54) ∧ unitToPx s "mm".data = .ok (s * 96 / 25.4) ∧
      unitToPx s "q".data = .ok (s * 96 / 25.4 / 4)) ∧
    css_filter "blur(1.5rem)".data = .ok ([], [CssFilter.Blur 24]) ∧
    css_filter "blur(1in)".data = .ok ([], [CssFilter.Blur 96]) ∧
    css_filter "blur(0)".data = .ok ([], [CssFilter.Blur 0]) := by
  refine ⟨fun s => ?_, ?_, ?_, ?_⟩
  · refine ⟨?_, ?_, ?_, ?_, ?_, ?_, ?_, ?_, ?_⟩ <;> with_unfolding_all rfl
  · with_unfolding_all decide
  · with_unfolding_all decide
  · with_unfolding_all decide

/-- Claim C4, evaluated at the failing input: the `"%"` arm of the unit
table does map `%` to `×16/100`, but a length argument written `n%` never
reaches it — the numeric split of `pixel` stops only at alphabetic bytes,
so the `%` lands in the numeric portion, the `f32` parse fails, and
`css_filter "blur(50%)"` leaves the text unconsumed instead of producing
`Blur 8`. -/
theorem claim_C4 :
    css_filter "blur(50%)".data = .ok ("blur(50%)".data, []) ∧
    (∀ s : ℚ, unitToPx s "%".data = .ok (s * 16 / 100)) ∧
    pixel "50%".data = .error .ParseFloatError := by
  refine ⟨?_, fun s => ?_, ?_⟩
  · with_unfolding_all decide
  · with_unfolding_all rfl
  · with_unfolding_all decide

/-- Claim C5: a unitless length argument is valid exactly when its value
is `0`; a nonzero unitless length is a `UnitError`, so
`css_filter "blur(5)"` is `Ok(("blur(5)", []))` — the text is left
unconsumed, not silently defaulted. -/
theorem claim_C5 :
    (∀ s : ℚ, s ≠ 0 → unitToPx s [] = .error (.UnitParseError "[No unit assigned]".data)) ∧
    unitToPx 0 [] = .ok 0 ∧
    css_filter "blur(5)".data = .ok ("blur(5)".data, []) := by
  refine ⟨fun s hs => ?_, ?_, ?_⟩
  · have hred : unitToPx s [] =
        if s ≠ 0 then .error (.UnitParseError "[No unit assigned]".data) else .ok s := by
      with_unfolding_all rfl
    rw [hred, if_pos hs]
  · with_unfolding_all rfl
  · with_unfolding_all decide

/-- Witness for C5 at the concrete nonzero size 5. -/
theorem claim_C5_witness :
    unitToPx 5 [] = .error (.UnitParseError "[No unit assigned]".data) :=
  claim_C5.1 5 (by norm_num)

/-- Claim C6: `drop-shadow(2px 2px)` defaults blur-radius to 0 and color
to opaque black; `drop-shadow(2px 2px 5px #2F14DF)` yields color
(47,20,223,255); and the `rgba(...)` functional form consumes the doubled
closing parenthesis, yielding the same color with empty remainder. -/
theorem claim_C6 :
    parse_drop_shadow "drop-shadow(2px 2px)".data =
      some ([], CssFilter.DropShadow 2 2 0 ⟨0, 0, 0, 255⟩) ∧
    parse_drop_shadow "drop-shadow(2px 2px 5px #2F14DF)".data =
      some ([], CssFilter.DropShadow 2 2 5 ⟨47, 20, 223, 255⟩) ∧
    parse_drop_shadow "drop-shadow(2px 2px 5px rgba(47, 20, 223, 255))".data =
      some ([], CssFilter.DropShadow 2 2 5 ⟨47, 20, 223, 255⟩) := by
  refine ⟨?_, ?_, ?_⟩ <;> with_unfolding_all decide

/-- Claim C7: for brightness and contrast arguments a trailing `%` divides
the parsed number by 100 and a bare number passes through unchanged;
`brightness(150%)` gives `Brightness 1.5` and `contrast(200%)` gives
`Contrast 2`, each with empty remainder. -/
theorem claim_C7 :
    (∀ (s rest : Str) (n : ℚ), float (trim s) = some (rest, n) →
      (∀ rest2 : Str, tag "%".data (trim rest) = some rest2 →
        number_percentage s = some (rest2, n / 100)) ∧
      (tag "%".data (trim rest) = none → number_percentage s = some (rest, n))) ∧
    css_filter "brightness(150%)".data = .ok ([], [CssFilter.Brightness 1.5]) ∧
    css_filter "contrast(200%)".data = .ok ([], [CssFilter.Contrast 2]) := by
  refine ⟨fun s rest n hf => ⟨fun rest2 ht => ?_, fun ht => ?_⟩, ?_, ?_⟩
  · simp only [number_percentage, hf, ht]
  · simp only [number_percentage, hf, ht]
  · with_unfolding_all decide
  · with_unfolding_all decide

/-- Witness for C7 at the concrete argument text of `brightness(150%)`. -/
theorem claim_C7_witness :
    number_percentage "150%".data = some ([], (150 : ℚ) / 100) := by
  have hf : float (trim "150%".data) = some ("%".data, (150 : ℚ)) := by
    with_unfolding_all decide
  have ht : tag "%".data (trim "%".data) = some [] := by with_unfolding_all decide
  exact (claim_C7.1 "150%".data "%".data 150 hf).1 [] ht

/-- Claim C8: the output list is exactly the left-to-right chain of
grammar matches (order preserved, one entry per match, no duplicate
elimination); in particular the three-function composite input parses to
its three filters in textual order with empty remainder. -/
theorem claim_C8 :
    (∀ (input rem : Str) (fs : List CssFilter), css_filter input = .ok (rem, fs) →
      Chain (trim input) fs rem) ∧
    css_filter "brightness(2) blur(1.5rem) drop-shadow(2px 2px 5px)".data =
      .ok ([], [CssFilter.Brightness 2, CssFilter.Blur 24,
        CssFilter.DropShadow 2 2 5 ⟨0, 0, 0, 255⟩]) := by
  constructor
  · intro input rem fs h
    unfold css_filter at h
    injection h with h0
    obtain ⟨l, hfs, hch, hn, hsfx⟩ :=
      loopF_chain _ (trim input) [] (noTrailWs_trim _) (by omega) h0
    simp only [List.nil_append] at hfs
    subst hfs
    exact hch
  · with_unfolding_all decide

/-- Witness for C8 at a concrete parse. -/
theorem claim_C8_witness :
    Chain (trim "blur(0)".data) [CssFilter.Blur 0] [] :=
  claim_C8.1 "blur(0)".data [] [CssFilter.Blur 0] (by with_unfolding_all decide)

/-- Claim C9: whitespace handling is equivalence-preserving for blur:
`blur(20px)`, `blur( 20px )` and `blur(20 px)` all produce
`Ok(("", [Blur 20.0]))`. -/
theorem claim_C9 :
    css_filter "blur(20px)".data = .ok ([], [CssFilter.Blur 20]) ∧
    css_filter "blur( 20px )".data = .ok ([], [CssFilter.Blur 20]) ∧
    css_filter "blur(20 px)".data = .ok ([], [CssFilter.Blur 20]) := by
  refine ⟨?_, ?_, ?_⟩ <;> with_unfolding_all decide

/-- Claim C10: whenever `css_filter input` returns `Ok((rem, filters))`,
`rem` is a suffix of `input.trim()` on which none of the four per-function
parsers succeeds — the driver stops only when no grammar matches. -/
theorem claim_C10 : ∀ (input rem : Str) (fs : List CssFilter),
    css_filter input = .ok (rem, fs) →
    rem <:+ trim input ∧ blurParser rem = none ∧ brightnessParser rem = none ∧
    contrastParser rem = none ∧ parse_drop_shadow rem = none := by
  intro input rem fs h
  unfold css_filter at h
  injection h with h0
  obtain ⟨l, hfs, hch, hn, hsfx⟩ :=
    loopF_chain _ (trim input) [] (noTrailWs_trim _) (by omega) h0
  obtain ⟨h1, h2, h3, h4⟩ := cssFilterAlt_none hn
  exact ⟨hsfx, h1, h2, h3, h4⟩

/-- Witness for C10 at the concrete input with unmatched trailing text. -/
theorem claim_C10_witness :
    ("unknown-fn(1)".data <:+ trim "blur(20px) unknown-fn(1)".data) ∧
    blurParser "unknown-fn(1)".data = none ∧
    brightnessParser "unknown-fn(1)".data = none ∧
    contrastParser "unknown-fn(1)".data = none ∧
    parse_drop_shadow "unknown-fn(1)".data = none :=
  claim_C10 "blur(20px) unknown-fn(1)".data "unknown-fn(1)".data [CssFilter.Blur 20]
    (by with_unfolding_all decide)

end CF
